import Mathlib

/-!
# QueryMan — Tab/Panel Coordinator: a shallow embedding

This file embeds the state and the operations of the Tab/Panel Coordinator
and the Layout Controller of the QueryMan SQL-playground application
(`src/App.jsx`, second component copy, lines 1841 ff.) as executable Lean
definitions, and proves properties of them.

Conventions of the embedding:
* JavaScript strings are `String`, arrays are `List`, objects used as
  string-keyed maps (`tabResults`, `tabTypes`) are association lists with
  `setKey` / `eraseKey` / `List.lookup` mirroring spread-insert and `delete`;
* `new Date()` timestamps are `Nat` (milliseconds since the epoch);
* freshly generated `nanoid()` identifiers appear as explicit arguments,
  with freshness (not already used) as a hypothesis where it matters;
* the static catalog `predefinedQueries` (imported from `./data/mockData`,
  a file not part of the sources) is passed to each operation as an
  explicit read-only argument of type `List QueryDefinition`;
* calls into the external Query Execution Adapter (`executeQuery` of the
  `useSQLQuery` hook) are recorded in a trace field `execRequests`; the
  adapter's completion callback is a separate operation.
-/

namespace QueryMan

/-! ## The name-derivation regular expression

`App.jsx` (lines 1955-1957) derives a tab name by
`query.match(/^\s*(SELECT|INSERT|UPDATE|DELETE|CREATE|ALTER|DROP)\s+(?:.*?FROM\s+)?([^\s;]+)/i)`.
We embed a backtracking matcher for exactly this pattern, with JavaScript
leftmost-greedy/lazy semantics:
* `\s*` is maximal-munch (sound here: every alternation branch that follows
  starts with a letter, so consuming fewer whitespace characters can never
  enable a match);
* the keyword alternation commits to its unique matching branch (no keyword
  is a case-insensitive prefix of another, so at most one branch matches);
* `\s+` after the keyword is greedy with backtracking (`wsPlusThen` tries
  the longest run first, then shorter ones);
* `(?:.*?FROM\s+)?` is a greedy option whose body extends the lazy `.*?`
  one character at a time (`tryFromGroup`), falling back to the empty
  option (`fromGroupOrTarget`);
* the final capture `([^\s;]+)` is maximal-munch (sound: it ends the
  pattern).
-/

/-- Model of the JavaScript `\s` character class (whitespace). -/
def isWsChar (c : Char) : Bool := c.isWhitespace

/-- Model of `String.prototype.trim()`: strip whitespace from both ends
(structural, so that proofs can evaluate it). -/
def jsTrim (s : String) : String :=
  String.mk (((s.data.dropWhile isWsChar).reverse.dropWhile isWsChar).reverse)

/-- Model of `.` in a regex without the `s` flag: any character that is not
a line terminator. -/
def isDotChar (c : Char) : Bool := c != '\n' && c != '\r'

/-- The character class `[^\s;]` of the target capture in the source code. -/
def targetChar (c : Char) : Bool := !c.isWhitespace && c != ';'

/-- The character class `\S` of the target capture as the specification
writes the pattern (`(\S+)` instead of the code's `([^\s;]+)`). -/
def specTargetChar (c : Char) : Bool := !c.isWhitespace

/-- Case-insensitive prefix match: `stripPrefixCI p l` returns the matched
characters of `l` (case as typed) and the remainder, when `p` is a
case-insensitive prefix of `l`. -/
def stripPrefixCI : List Char → List Char → Option (List Char × List Char)
  | [], l => some ([], l)
  | _ :: _, [] => none
  | p :: ps, c :: cs =>
    if p.toLower = c.toLower then
      (stripPrefixCI ps cs).map (fun r => (c :: r.1, r.2))
    else none

/-- The keyword alternation `SELECT|INSERT|UPDATE|DELETE|CREATE|ALTER|DROP`,
in source order. -/
def sqlKeywords : List (List Char) :=
  ["SELECT".data, "INSERT".data, "UPDATE".data, "DELETE".data,
   "CREATE".data, "ALTER".data, "DROP".data]

/-- Try the keyword alternation at the head of `l`, first branch first. -/
def matchKeyword (l : List Char) : Option (List Char × List Char) :=
  sqlKeywords.foldr (fun k acc => stripPrefixCI k l <|> acc) none

/-- The final capture `(tc)+` with maximal munch; fails on an empty match. -/
def tryTarget (tc : Char → Bool) (l : List Char) : Option String :=
  match l.takeWhile tc with
  | [] => none
  | t => some (String.mk t)

/-- `\s+` followed by continuation `k`: consume at least one whitespace
character, longest run first, backtracking to shorter runs. -/
def wsPlusThen (k : List Char → Option String) : List Char → Option String
  | [] => none
  | c :: rest =>
    if isWsChar c then (wsPlusThen k rest <|> k rest) else none

/-- The group body `.*?FROM\s+` followed by the target capture: try `FROM`
at the current position first (lazy `.*?`), else extend `.*?` by one
non-line-terminator character. -/
def tryFromGroup (tc : Char → Bool) : List Char → Option String
  | [] => none
  | c :: rest =>
    (match stripPrefixCI "FROM".data (c :: rest) with
     | some (_, r) => wsPlusThen (tryTarget tc) r
     | none => none)
    <|> (if isDotChar c then tryFromGroup tc rest else none)

/-- The greedy option `(?:.*?FROM\s+)?` followed by the target capture:
try the group body first, then the empty option. -/
def fromGroupOrTarget (tc : Char → Bool) (l : List Char) : Option String :=
  tryFromGroup tc l <|> tryTarget tc l

/-- Core of the tab-name derivation of `App.jsx` lines 1951-1962,
parameterised by the character class of the target capture: trim the query
(as the code does), match the pattern, and return `"<ACTION> <TARGET>"` on
a match and `"New Query"` otherwise. -/
def deriveTabNameCore (tc : Char → Bool) (query : String) : String :=
  let s := (jsTrim query).data
  let s := s.dropWhile isWsChar
  match matchKeyword s with
  | none => "New Query"
  | some (action, rest) =>
    match wsPlusThen (fromGroupOrTarget tc) rest with
    | none => "New Query"
    | some target => String.mk action ++ " " ++ target

/-- The tab-name derivation exactly as the source writes the pattern:
target capture `([^\s;]+)`. -/
def deriveTabName (query : String) : String :=
  deriveTabNameCore targetChar query

/-- Modelled from the spec: the tab-name derivation as the specification
writes the pattern, with target capture `(\S+)`; used only to compare the
specification's wording against the source's behaviour. -/
def deriveTabNameSpec (query : String) : String :=
  deriveTabNameCore specTargetChar query

/-! ## Data model -/

/-- Modelled from the spec: one entry of the static query catalog
(`predefinedQueries` of `./data/mockData`, a file not present in the
sources); per §6 it is `{id: string, name: string, query: string}`,
consumed read-only. -/
structure QueryDefinition where
  id : String
  name : String
  query : String
deriving Repr, DecidableEq

/-- An editor tab, as created in `App.jsx` (e.g. `addNewTab`, line 2420):
`{id, name, queryId, query, renamed}`. -/
structure EditorTab where
  id : String
  name : String
  queryId : String
  query : String
  renamed : Bool
deriving Repr, DecidableEq

/-- An output tab. `handleExecuteQuery` (line 2117) creates
`{id, name, queryId, queryTabId, timestamp}`; `createVisualizationTab`
(line 2071) additionally sets `sourceTabId`; `handleHistorySelect`
(line 2223) sets `sourceTabId` but no `queryTabId`. Absent JavaScript
fields are `none`; `new Date()` / ISO-string timestamps are `Nat`
milliseconds. -/
structure OutputTab where
  id : String
  name : String
  queryId : String
  queryTabId : Option String
  sourceTabId : Option String
  timestamp : Nat
deriving Repr, DecidableEq

/-- The value stored in `tabResults` for an output tab:
`{data, executionTime}` (rows modelled as lists of cell strings;
`executionTime` may be `null`, see `handleTabClick` line 2566). -/
structure ResultPayload where
  data : List (List String)
  executionTime : Option Nat
deriving Repr, DecidableEq

/-- The `tabTypes` entry of an output tab: `"results"` or
`"visualization"`. -/
inductive TabKind where
  | results
  | visualization
deriving Repr, DecidableEq

/-! String-keyed JavaScript objects (`tabResults`, `tabTypes`) are
association lists; `setKey` mirrors `{...prev, [k]: v}` and `eraseKey`
mirrors `delete obj[k]`; lookup is `List.lookup`. -/

/-- Insert-or-update a key, as object spread with a computed key does. -/
def setKey {κ α : Type} [DecidableEq κ] (m : List (κ × α)) (k : κ) (v : α) :
    List (κ × α) :=
  (m.filter (fun p => p.1 ≠ k)) ++ [(k, v)]

/-- Remove a key, as `delete obj[k]` does. -/
def eraseKey {κ α : Type} [DecidableEq κ] (m : List (κ × α)) (k : κ) :
    List (κ × α) :=
  m.filter (fun p => p.1 ≠ k)

/-- A record of one call to the Execution Adapter's
`executeQuery(queryText, queryId, label, onComplete)`. -/
structure ExecRequest where
  queryText : String
  queryId : String
  label : String
deriving Repr, DecidableEq

/-- The state of the Tab/Panel Coordinator and the Layout Controller
(`App.jsx` lines 1841-1878, 2284-2293):
`queryTabs`/`activeTabId`, rename-in-progress state, `outputTabs` with
`activeOutputTabId`, the `tabResults` and `tabTypes` maps, `activePanel`,
`layoutDirection` (a string, as in the source), `isFullScreen`,
`splitSize`, the error/modified flags, and the query slot
(`currentQueryId`, `queryText`).  `hookResults` is modelled from the spec:
the displayed result state owned by the `useSQLQuery` hook (not in the
sources), cleared by its `clearResults`.  `execRequests` is the trace of
calls to the external Execution Adapter. -/
structure AppState where
  queryTabs : List EditorTab
  activeTabId : String
  editingTabId : Option String
  newTabName : String
  outputTabs : List OutputTab
  activeOutputTabId : Option String
  tabResults : List (String × ResultPayload)
  tabTypes : List (String × TabKind)
  activePanel : String
  layoutDirection : String
  isFullScreen : Bool
  splitSize : ℚ
  customError : Option String
  queryModified : Bool
  currentQueryId : String
  queryText : String
  hookResults : Option (List (List String))
  execRequests : List ExecRequest
deriving Repr, DecidableEq

/-- The list of editor-tab ids of a state. -/
def AppState.tabIds (s : AppState) : List String :=
  s.queryTabs.map (·.id)

/-- The list of output-tab ids of a state. -/
def AppState.outputIds (s : AppState) : List String :=
  s.outputTabs.map (·.id)

/-! ## Operations

Each operation is the state transformation performed by the corresponding
handler or effect of `App.jsx`.  DOM-only side effects (cursor style,
focus, `stopPropagation`, the mobile sidebar) are outside the model. -/

/-- A catalog entry used when the catalog is empty; `App.jsx` line 1842
reads `predefinedQueries[0]` unconditionally, so app start requires a
nonempty catalog (an empty one would throw). -/
def headQuery (catalog : List QueryDefinition) : QueryDefinition :=
  catalog.headD ⟨"", "", ""⟩

/-- The initial coordinator state (`App.jsx` lines 1841-1873, 2284-2293):
one default editor tab named `"New Query"` seeded with the catalog's first
entry, no output tabs, empty maps, editor panel, vertical layout, split
size 60. `tabId` stands for the `nanoid()` of the default tab. -/
def initialState (catalog : List QueryDefinition) (tabId : String) : AppState :=
  let q := headQuery catalog
  { queryTabs := [⟨tabId, "New Query", q.id, q.query, false⟩]
    activeTabId := tabId
    editingTabId := none
    newTabName := ""
    outputTabs := []
    activeOutputTabId := none
    tabResults := []
    tabTypes := []
    activePanel := "editor-panel"
    layoutDirection := "vertical"
    isFullScreen := false
    splitSize := 60
    customError := none
    queryModified := false
    currentQueryId := q.id
    queryText := q.query
    hookResults := none
    execRequests := [] }

/-- `addNewTab` (lines 2420-2430): append a tab named `"New Query"` seeded
with the catalog's first entry, `renamed: false`, and make it active. -/
def addNewTab (catalog : List QueryDefinition) (freshId : String)
    (s : AppState) : AppState :=
  let q := headQuery catalog
  { s with
    queryTabs := s.queryTabs ++ [⟨freshId, "New Query", q.id, q.query, false⟩]
    activeTabId := freshId }

/-- `closeTab` (lines 2433-2447): no-op when only one tab exists; else
filter the tab out, and if it was active, activate the last remaining tab.
(When the filtered list is empty — impossible with distinct ids — the
JavaScript would throw on `newTabs[newTabs.length - 1].id`; that branch is
left as the filtered state.) -/
def closeTab (tabId : String) (s : AppState) : AppState :=
  if s.queryTabs.length = 1 then s
  else
    let newTabs := s.queryTabs.filter (fun t => t.id ≠ tabId)
    let s1 := { s with queryTabs := newTabs }
    if tabId = s.activeTabId then
      match newTabs.getLast? with
      | some t => { s1 with activeTabId := t.id }
      | none => s1
    else s1

/-- `handleTabDoubleClick` (lines 2450-2460): begin a rename, capturing the
current name as the draft. -/
def handleTabDoubleClick (tabId currentName : String) (s : AppState) :
    AppState :=
  { s with editingTabId := some tabId, newTabName := currentName }

/-- `handleTabRename` (lines 2463-2479): when a rename is in progress and
the trimmed draft is nonempty (JavaScript truthiness of
`newTabName.trim()`), store the trimmed draft as the tab's name and set
`renamed: true`; in any case reset the rename state. -/
def handleTabRename (s : AppState) : AppState :=
  let tabs :=
    match s.editingTabId with
    | some tid =>
      if jsTrim s.newTabName ≠ "" then
        s.queryTabs.map (fun t =>
          if t.id = tid then
            { t with name := jsTrim s.newTabName, renamed := true }
          else t)
      else s.queryTabs
    | none => s.queryTabs
  { s with queryTabs := tabs, editingTabId := none, newTabName := "" }

/-- The `Escape` branch of `handleRenameKeyDown` (lines 2490-2493): cancel
the rename without committing. -/
def handleRenameEscape (s : AppState) : AppState :=
  { s with editingTabId := none, newTabName := "" }

/-- `handleQueryChange` (lines 2002-2033): select a catalog query from the
dropdown; update the active tab (keeping its name when renamed), set the
query slot, clear the custom error, and flag the query as modified. -/
def handleQueryChange (catalog : List QueryDefinition) (queryId : String)
    (s : AppState) : AppState :=
  match catalog.find? (fun q => q.id = queryId) with
  | none => s
  | some q =>
    { s with
      queryTabs := s.queryTabs.map (fun t =>
        if t.id = s.activeTabId then
          { t with
            name := if t.renamed then t.name else q.name
            queryId := queryId
            query := q.query }
        else t)
      currentQueryId := queryId
      queryText := q.query
      customError := none
      queryModified := true }

/-- The tab-name derivation effect (lines 1940-1969): when the active tab
exists and has not been manually renamed, set its name to the derived
name (the mutual-exclusion guard flags of the synchronizer are transient
and not part of the state model). -/
def deriveNameEffect (s : AppState) : AppState :=
  match s.queryTabs.find? (fun t => t.id = s.activeTabId) with
  | none => s
  | some tab =>
    if tab.renamed then s
    else
      let tabName := deriveTabName tab.query
      if tabName ≠ tab.name then
        { s with
          queryTabs := s.queryTabs.map (fun t =>
            if t.id = s.activeTabId then { t with name := tabName } else t) }
      else s

/-- The tab→editor synchronization effect (lines 1896-1911): copy the
active tab's `queryId` and `query` into the query slot. -/
def syncFromTabEffect (s : AppState) : AppState :=
  match s.queryTabs.find? (fun t => t.id = s.activeTabId) with
  | none => s
  | some tab => { s with currentQueryId := tab.queryId, queryText := tab.query }

/-- The editor→tab synchronization effect (lines 1914-1937): copy the query
slot into the active tab when it differs. -/
def syncFromEditorEffect (s : AppState) : AppState :=
  match s.queryTabs.find? (fun t => t.id = s.activeTabId) with
  | none => s
  | some tab =>
    if tab.query ≠ s.queryText ∨ tab.queryId ≠ s.currentQueryId then
      { s with
        queryTabs := s.queryTabs.map (fun t =>
          if t.id = s.activeTabId then
            { t with query := s.queryText, queryId := s.currentQueryId }
          else t) }
    else s

/-- An edit typed in the editor widget: the widget emits `onChange(text)`
and `setQueryText` stores it; the custom error is cleared by the effect at
lines 1992-1996. -/
def editQueryText (text : String) (s : AppState) : AppState :=
  { s with queryText := text, customError := none }

/-- The effect at lines 2169-2175: when `currentQueryId` designates a
catalog entry, reset `queryText` to that entry's text. -/
def currentQueryEffect (catalog : List QueryDefinition) (s : AppState) :
    AppState :=
  match catalog.find? (fun q => q.id = s.currentQueryId) with
  | none => s
  | some q => { s with queryText := q.query }

/-- `handleExecuteQuery` (lines 2098-2166): clear the custom error and the
modified flag; if the trimmed text equals some catalog entry's trimmed
text, append a new output tab `"<active tab name> Output"` of kind
`results`, make it active, adopt the matched query id, and request
execution from the adapter; otherwise set the user-visible error message.
`freshId` stands for the `nanoid()` of the new output tab and `now` for
its `new Date()` timestamp.  (If no active tab existed the JavaScript
would throw on `currentTab.name`; that branch is left as the reset
state.) -/
def handleExecuteQuery (catalog : List QueryDefinition) (query : String)
    (freshId : String) (now : Nat) (s : AppState) : AppState :=
  let s0 := { s with customError := none, queryModified := false }
  match catalog.find? (fun q => jsTrim q.query = jsTrim query) with
  | some mq =>
    match s0.queryTabs.find? (fun t => t.id = s0.activeTabId) with
    | none => s0
    | some currentTab =>
      { s0 with
        outputTabs := s0.outputTabs ++
          [⟨freshId, currentTab.name ++ " Output", mq.id,
            some s0.activeTabId, none, now⟩]
        activeOutputTabId := some freshId
        tabTypes := setKey s0.tabTypes freshId .results
        currentQueryId := mq.id
        execRequests := s0.execRequests ++ [⟨query, mq.id, currentTab.name⟩] }
  | none =>
    { s0 with
      customError := some
        "You can only execute queries from the predefined list. Please select a query from the dropdown." }

/-- The `onQueryComplete` callback of `handleExecuteQuery` (lines
2141-2151) and of the backfill in `handleTabClick` (lines 2560-2570):
store `{data, executionTime}` under the output tab's id when the adapter
returns rows. -/
def onQueryComplete (outId : String) (rows : Option (List (List String)))
    (execTime : Option Nat) (s : AppState) : AppState :=
  match rows with
  | none => s
  | some r => { s with tabResults := setKey s.tabResults outId ⟨r, execTime⟩ }

/-- `createVisualizationTab` (lines 2062-2095): no-op unless the source tab
exists and has a stored payload; otherwise append a tab
`"<source name> Visualization"` of kind `visualization` referencing the
source, make it active, and store the source's payload under the new id
(`prevResults[sourceTabId]` is stored as the new entry). -/
def createVisualizationTab (sourceTabId freshId : String) (now : Nat)
    (s : AppState) : AppState :=
  match s.outputTabs.find? (fun t => t.id = sourceTabId),
        s.tabResults.lookup sourceTabId with
  | some sourceTab, some payload =>
    { s with
      outputTabs := s.outputTabs ++
        [⟨freshId, sourceTab.name ++ " Visualization", sourceTab.queryId,
          sourceTab.queryTabId, some sourceTabId, now⟩]
      activeOutputTabId := some freshId
      tabTypes := setKey s.tabTypes freshId .visualization
      tabResults := setKey s.tabResults freshId payload }
  | _, _ => s

/-- The `reduce` step of `closeOutputTab` (lines 2528-2530): keep the
element with the greater timestamp, the later one on ties. -/
def mostRecentReduce (latest current : OutputTab) : OutputTab :=
  if latest.timestamp > current.timestamp then latest else current

/-- `closeOutputTab` (lines 2497-2538): do nothing unless the user
confirms; on confirmation remove the tab, its payload and its kind entry,
and if it was active, activate the remaining tab with the greatest
timestamp (the `reduce` keeps the later element on ties) or, with no
remaining tab, clear the active selection and the displayed results
(`clearResults` of the `useSQLQuery` hook, modelled from the spec as
clearing the hook's displayed result state). -/
def closeOutputTab (tabId : String) (confirm : Bool) (s : AppState) :
    AppState :=
  if ¬confirm then s
  else
    let s1 := { s with
      outputTabs := s.outputTabs.filter (fun t => t.id ≠ tabId)
      tabResults := eraseKey s.tabResults tabId
      tabTypes := eraseKey s.tabTypes tabId }
    if s.activeOutputTabId = some tabId then
      match s.outputTabs.filter (fun t => t.id ≠ tabId) with
      | [] => { s1 with activeOutputTabId := none, hookResults := none }
      | t :: ts =>
        let mostRecent := ts.foldl mostRecentReduce t
        { s1 with activeOutputTabId := some mostRecent.id }
    else s1

/-- `handleClearResults` (lines 2036-2059): exit full screen (before the
confirmation prompt); do nothing further unless the user confirms; on
confirmation empty the output tabs, the payload map and the kind map,
clear the active selection, and clear the displayed results
(`clearResults` of the hook, modelled from the spec). -/
def handleClearResults (confirm : Bool) (s : AppState) : AppState :=
  let s0 := if s.isFullScreen then { s with isFullScreen := false } else s
  if ¬confirm then s0
  else
    { s0 with
      outputTabs := []
      activeOutputTabId := none
      tabResults := []
      tabTypes := []
      hookResults := none }

/-- `handleTabClick` (lines 2541-2587): the two reserved panel ids switch
`activePanel`; an output-tab id switches to the results panel and makes
the tab active, re-issuing the query to the adapter when the tab has no
stored payload, a truthy `queryId`, and the catalog still has the query;
any other id is an editor-tab selection. -/
def handleTabClick (catalog : List QueryDefinition) (tabId : String)
    (s : AppState) : AppState :=
  if tabId = "editor-panel" ∨ tabId = "results-panel" then
    { s with activePanel := tabId }
  else
    match s.outputTabs.find? (fun t => t.id = tabId) with
    | some outputTab =>
      let s1 := { s with activePanel := "results-panel",
                         activeOutputTabId := some tabId }
      if (s.tabResults.lookup tabId).isNone ∧ outputTab.queryId ≠ "" then
        match catalog.find? (fun q => q.id = outputTab.queryId) with
        | some q =>
          { s1 with execRequests := s1.execRequests ++
              [⟨q.query, outputTab.queryId, outputTab.name⟩] }
        | none => s1
      else s1
    | none =>
      { s with activePanel := "editor-panel", activeTabId := tabId }

/-- `handleTableClick` (lines 2255-2281): synthesize
`SELECT * FROM <tableName> LIMIT 100;` when no custom SQL is given, look
the text up in the catalog, append a tab named `SELECT <tableName>`
(`renamed: false`) and make it active. -/
def handleTableClick (catalog : List QueryDefinition) (freshId : String)
    (tableName : String) (customSQL : Option String) (s : AppState) :
    AppState :=
  let newQuery :=
    match customSQL with
    | some sql => sql
    | none => "SELECT * FROM " ++ tableName ++ " LIMIT 100;"
  let queryId :=
    match catalog.find? (fun q => jsTrim q.query = jsTrim newQuery) with
    | some mq => mq.id
    | none => ""
  { s with
    queryTabs := s.queryTabs ++
      [⟨freshId, "SELECT " ++ tableName, queryId, newQuery, false⟩]
    activeTabId := freshId }

/-- A query-history entry as consumed by `handleHistorySelect`
(`{query, queryId}`). -/
structure HistoryItem where
  query : String
  queryId : String
deriving Repr, DecidableEq

/-- The synchronous part of `handleHistorySelect` (lines 2178-2252): clear
the custom error; when the history item's query id is still in the
catalog, append a tab named after the catalog entry (`renamed: false`),
make it active, switch to the editor panel, and — when `shouldExecute` —
request execution from the adapter (the output tab itself is only created
in the completion callback, `historySelectComplete`); when the id is gone,
set the user-visible error message. -/
def handleHistorySelect (catalog : List QueryDefinition) (item : HistoryItem)
    (freshTabId freshOutputId : String) (shouldExecute : Bool)
    (s : AppState) : AppState :=
  let s0 := { s with customError := none }
  match catalog.find? (fun q => q.id = item.queryId) with
  | some mq =>
    let s1 := { s0 with
      queryTabs := s0.queryTabs ++
        [⟨freshTabId, mq.name, item.queryId, item.query, false⟩]
      activeTabId := freshTabId
      activePanel := "editor-panel" }
    if shouldExecute then
      let _ := freshOutputId
      { s1 with execRequests := s1.execRequests ++
          [⟨item.query, item.queryId, mq.name⟩] }
    else s1
  | none =>
    { s0 with
      customError := some
        "Cannot load this query from history as it's no longer in the predefined list." }

/-- The completion callback of `handleHistorySelect` (lines 2211-2236):
when rows arrive, store the payload, append the output tab
`"<catalog name> Results"` (with `sourceTabId`, without `queryTabId`),
make it active and switch to the results panel. -/
def historySelectComplete (outId name queryId srcTabId : String) (now : Nat)
    (rows : Option (List (List String))) (execTime : Option Nat)
    (s : AppState) : AppState :=
  match rows with
  | none => s
  | some r =>
    { s with
      tabResults := setKey s.tabResults outId ⟨r, execTime⟩
      outputTabs := s.outputTabs ++
        [⟨outId, name ++ " Results", queryId, none, some srcTabId, now⟩]
      activeOutputTabId := some outId
      activePanel := "results-panel" }

/-- `toggleLayoutDirection` (lines 2300-2309): exit full screen, then flip
`vertical ↔ horizontal`. -/
def toggleLayoutDirection (s : AppState) : AppState :=
  { s with
    isFullScreen := false
    layoutDirection :=
      if s.layoutDirection = "vertical" then "horizontal" else "vertical" }

/-- `toggleFullScreen` (lines 2312-2314). -/
def toggleFullScreen (s : AppState) : AppState :=
  { s with isFullScreen := ¬s.isFullScreen }

/-- The effect at lines 2651-2656: exit full screen whenever there are no
displayed results. -/
def fullScreenAutoExitEffect (s : AppState) : AppState :=
  if s.hookResults.isNone ∧ s.isFullScreen then { s with isFullScreen := false }
  else s

/-- The new split size computed by one `handleResize` move event (lines
2348-2398), given the layout direction, the ratio recorded at drag start
(`startSizeRef`), the pointer coordinate recorded at drag start
(`startPosRef`), the current pointer coordinate, and the live container
extent along the split axis (height in vertical layout, width otherwise).
The candidate pixel size is the drag-start pane size plus the pointer
delta, clamped to a 200-pixel (vertical) or 300-pixel (horizontal) floor
for the editor pane and to container-minus-floor for the results pane,
then converted back to a percentage of the container. -/
def handleResizeNewSize (layoutDirection : String)
    (startSize startPos clientPos containerExtent : ℚ) : ℚ :=
  if layoutDirection = "vertical" then
    let delta := clientPos - startPos
    let minSizeInPixels : ℚ := 200
    let maxSizeInPixels : ℚ := containerExtent - 200
    let currentSizeInPixels := containerExtent * startSize / 100
    let newSizeInPixels := currentSizeInPixels + delta
    if newSizeInPixels < minSizeInPixels then
      minSizeInPixels / containerExtent * 100
    else if newSizeInPixels > maxSizeInPixels then
      maxSizeInPixels / containerExtent * 100
    else newSizeInPixels / containerExtent * 100
  else
    let delta := clientPos - startPos
    let minSizeInPixels : ℚ := 300
    let maxSizeInPixels : ℚ := containerExtent - 300
    let currentSizeInPixels := containerExtent * startSize / 100
    let newSizeInPixels := currentSizeInPixels + delta
    if newSizeInPixels < minSizeInPixels then
      minSizeInPixels / containerExtent * 100
    else if newSizeInPixels > maxSizeInPixels then
      maxSizeInPixels / containerExtent * 100
    else newSizeInPixels / containerExtent * 100

/-- One `handleResize` move event as a state transformation: a no-op when
no drag is in progress (`isDraggingRef`), else `setSplitSize` with the
computed size. -/
def resizeMove (isDragging : Bool) (startSize startPos clientPos
    containerExtent : ℚ) (s : AppState) : AppState :=
  if ¬isDragging then s
  else
    { s with
      splitSize :=
        handleResizeNewSize s.layoutDirection startSize startPos clientPos
          containerExtent }

/-! ## The operation step relation

`Step c s s'` holds when one user action, adapter callback or effect turns
state `s` into state `s'` (catalog `c`).  Freshly generated `nanoid()`
editor-tab ids come with the hypothesis that they are not already in use,
which is what a collision-free id generator guarantees. -/

inductive Step (c : List QueryDefinition) : AppState → AppState → Prop where
  | addNewTab (s : AppState) (freshId : String)
      (hfresh : freshId ∉ s.tabIds) :
      Step c s (addNewTab c freshId s)
  | closeTab (s : AppState) (tabId : String) :
      Step c s (closeTab tabId s)
  | tabDoubleClick (s : AppState) (tabId currentName : String) :
      Step c s (handleTabDoubleClick tabId currentName s)
  | tabRename (s : AppState) :
      Step c s (handleTabRename s)
  | renameEscape (s : AppState) :
      Step c s (handleRenameEscape s)
  | queryChange (s : AppState) (queryId : String) :
      Step c s (handleQueryChange c queryId s)
  | deriveName (s : AppState) :
      Step c s (deriveNameEffect s)
  | syncFromTab (s : AppState) :
      Step c s (syncFromTabEffect s)
  | syncFromEditor (s : AppState) :
      Step c s (syncFromEditorEffect s)
  | editText (s : AppState) (text : String) :
      Step c s (editQueryText text s)
  | currentQuery (s : AppState) :
      Step c s (currentQueryEffect c s)
  | execute (s : AppState) (query freshId : String) (now : Nat) :
      Step c s (handleExecuteQuery c query freshId now s)
  | queryComplete (s : AppState) (outId : String)
      (rows : Option (List (List String))) (execTime : Option Nat) :
      Step c s (onQueryComplete outId rows execTime s)
  | visualization (s : AppState) (sourceTabId freshId : String) (now : Nat) :
      Step c s (createVisualizationTab sourceTabId freshId now s)
  | closeOutput (s : AppState) (tabId : String) (confirm : Bool) :
      Step c s (closeOutputTab tabId confirm s)
  | clearResults (s : AppState) (confirm : Bool) :
      Step c s (handleClearResults confirm s)
  | tabClick (s : AppState) (tabId : String) :
      Step c s (handleTabClick c tabId s)
  | tableClick (s : AppState) (freshId tableName : String)
      (customSQL : Option String) (hfresh : freshId ∉ s.tabIds) :
      Step c s (handleTableClick c freshId tableName customSQL s)
  | historySelect (s : AppState) (item : HistoryItem)
      (freshTabId freshOutputId : String) (shouldExecute : Bool)
      (hfresh : freshTabId ∉ s.tabIds) :
      Step c s (handleHistorySelect c item freshTabId freshOutputId
        shouldExecute s)
  | historyComplete (s : AppState) (outId name queryId srcTabId : String)
      (now : Nat) (rows : Option (List (List String)))
      (execTime : Option Nat) :
      Step c s (historySelectComplete outId name queryId srcTabId now rows
        execTime s)
  | toggleLayout (s : AppState) :
      Step c s (toggleLayoutDirection s)
  | toggleFull (s : AppState) :
      Step c s (toggleFullScreen s)
  | fullAutoExit (s : AppState) :
      Step c s (fullScreenAutoExitEffect s)
  | resize (s : AppState) (isDragging : Bool)
      (startSize startPos clientPos containerExtent : ℚ) :
      Step c s (resizeMove isDragging startSize startPos clientPos
        containerExtent s)

/-- A state reachable from app start (`initialState`) by a sequence of
operations. -/
inductive Reachable (c : List QueryDefinition) : AppState → Prop where
  | init (tabId : String) : Reachable c (initialState c tabId)
  | step {s s' : AppState} : Reachable c s → Step c s s' → Reachable c s'

/-! ## Reference-level payload store (for the aliasing analysis)

In JavaScript, object values are references: `tabResults` maps output-tab
ids to references to payload objects.  The value-level `AppState` above
identifies a reference with its current value, which is adequate for
every operation of the program (they only ever *replace* map entries).
To analyse whether `createVisualizationTab` *copies* the source payload,
the reference level must be explicit: `RefPayloadState.tabResults` maps
ids to references into `store`. -/

structure RefPayloadState where
  outputTabs : List OutputTab
  activeOutputTabId : Option String
  tabResults : List (String × Nat)
  tabTypes : List (String × TabKind)
  store : List (Nat × ResultPayload)
deriving Repr, DecidableEq

/-- The payload observed for a tab: follow the tab's reference into the
store. -/
def RefPayloadState.payloadOf (s : RefPayloadState) (tabId : String) :
    Option ResultPayload :=
  (s.tabResults.lookup tabId).bind (fun r => s.store.lookup r)

/-- `createVisualizationTab` (lines 2062-2095) at the reference level: the
new `tabResults` entry receives `prevResults[sourceTabId]` — the very same
reference the source tab holds, not a clone of the payload object. -/
def createVisualizationTabRef (sourceTabId freshId : String) (now : Nat)
    (s : RefPayloadState) : RefPayloadState :=
  match s.outputTabs.find? (fun t => t.id = sourceTabId),
        s.tabResults.lookup sourceTabId with
  | some sourceTab, some r =>
    { s with
      outputTabs := s.outputTabs ++
        [⟨freshId, sourceTab.name ++ " Visualization", sourceTab.queryId,
          sourceTab.queryTabId, some sourceTabId, now⟩]
      activeOutputTabId := some freshId
      tabTypes := setKey s.tabTypes freshId .visualization
      tabResults := setKey s.tabResults freshId r }
  | _, _ => s

/-- In-place mutation of the payload object a tab holds: write through the
tab's reference into the store (no operation of the repository does this;
it is the "later mutation" the specification quantifies over). -/
def mutatePayloadInPlace (tabId : String) (p : ResultPayload)
    (s : RefPayloadState) : RefPayloadState :=
  match s.tabResults.lookup tabId with
  | none => s
  | some r => { s with store := setKey s.store r p }

/-- Replacement of the payload entry a tab's id maps to: bind the id to a
fresh reference holding `p` (this is how every `setTabResults` update of
the program behaves). -/
def replacePayloadEntry (tabId : String) (freshRef : Nat) (p : ResultPayload)
    (s : RefPayloadState) : RefPayloadState :=
  { s with
    tabResults := setKey s.tabResults tabId freshRef
    store := setKey s.store freshRef p }

/-! ## Helper lemmas about the map operations -/

lemma lookup_filter_ne_self {κ α : Type} [DecidableEq κ]
    (m : List (κ × α)) (k : κ) :
    (m.filter (fun p => p.1 ≠ k)).lookup k = none := by
  rw [List.lookup_eq_none_iff]
  intro p hp
  have h := (List.mem_filter.mp hp).2
  simp only [ne_eq, decide_eq_true_eq] at h
  exact bne_iff_ne.mpr (Ne.symm h)

lemma lookup_filter_ne_other {κ α : Type} [DecidableEq κ]
    (m : List (κ × α)) (k k' : κ) (h : k' ≠ k) :
    (m.filter (fun p => p.1 ≠ k)).lookup k' = m.lookup k' := by
  induction m with
  | nil => rfl
  | cons p m ih =>
    by_cases hp : p.1 = k
    · have h2 : (k' == p.1) = false := beq_eq_false_iff_ne.mpr (hp ▸ h)
      rw [List.filter_cons, if_neg (by simp [hp]), List.lookup_cons, h2]
      exact ih
    · rw [List.filter_cons, if_pos (by simp [hp]), List.lookup_cons,
        List.lookup_cons]
      cases h3 : k' == p.1
      · exact ih
      · rfl

lemma lookup_setKey_self {κ α : Type} [DecidableEq κ]
    (m : List (κ × α)) (k : κ) (v : α) :
    (setKey m k v).lookup k = some v := by
  unfold setKey
  rw [List.lookup_append, lookup_filter_ne_self]
  simp

lemma lookup_setKey_ne {κ α : Type} [DecidableEq κ]
    (m : List (κ × α)) (k k' : κ) (v : α) (h : k' ≠ k) :
    (setKey m k v).lookup k' = m.lookup k' := by
  unfold setKey
  have h2 : (k' == k) = false := beq_eq_false_iff_ne.mpr h
  rw [List.lookup_append, lookup_filter_ne_other m k k' h]
  simp [List.lookup_cons, h2]

lemma lookup_eraseKey_self {κ α : Type} [DecidableEq κ]
    (m : List (κ × α)) (k : κ) :
    (eraseKey m k).lookup k = none :=
  lookup_filter_ne_self m k

/-- The element the `reduce` of `closeOutputTab` selects belongs to the
reduced list. -/
lemma foldl_mostRecent_mem (t : OutputTab) (ts : List OutputTab) :
    (ts.foldl mostRecentReduce t) ∈ t :: ts := by
  induction ts generalizing t with
  | nil => simp
  | cons v ts ih =>
    have h := ih (mostRecentReduce t v)
    simp only [List.foldl_cons]
    rcases List.mem_cons.mp h with heq | hin
    · rw [heq]
      unfold mostRecentReduce
      split
      · exact List.mem_cons_self _ _
      · exact List.mem_cons_of_mem _ (List.mem_cons_self _ _)
    · exact List.mem_cons_of_mem _ (List.mem_cons_of_mem _ hin)

/-- The element the `reduce` of `closeOutputTab` selects has a maximal
timestamp. -/
lemma foldl_mostRecent_le (t : OutputTab) (ts : List OutputTab) :
    ∀ u ∈ t :: ts, u.timestamp ≤ (ts.foldl mostRecentReduce t).timestamp := by
  induction ts generalizing t with
  | nil =>
    intro u hu
    rw [List.mem_singleton] at hu
    subst hu
    simp
  | cons v ts ih =>
    intro u hu
    have hle : t.timestamp ≤ (mostRecentReduce t v).timestamp ∧
        v.timestamp ≤ (mostRecentReduce t v).timestamp := by
      unfold mostRecentReduce
      split <;> omega
    simp only [List.foldl_cons]
    rcases List.mem_cons.mp hu with h1 | hu'
    · rw [h1]
      exact le_trans hle.1
        (ih (mostRecentReduce t v) _ (List.mem_cons_self _ _))
    · rcases List.mem_cons.mp hu' with h2 | hu''
      · rw [h2]
        exact le_trans hle.2
          (ih (mostRecentReduce t v) _ (List.mem_cons_self _ _))
      · exact ih (mostRecentReduce t v) u (List.mem_cons_of_mem _ hu'')

/-- Filtering away one value of an injectively mapped list removes at most
one element. -/
lemma length_filter_ne_of_nodup {α β : Type} [DecidableEq β] (f : α → β)
    (a : β) (l : List α) (h : (l.map f).Nodup) :
    l.length - 1 ≤ (l.filter (fun x => f x ≠ a)).length := by
  induction l with
  | nil => simp
  | cons x xs ih =>
    simp only [List.map_cons, List.nodup_cons] at h
    by_cases hx : f x = a
    · have hall : ∀ y ∈ xs, f y ≠ a := by
        intro y hy hya
        apply h.1
        have hmem : f y ∈ xs.map f := List.mem_map.mpr ⟨y, hy, rfl⟩
        rw [hya, ← hx] at hmem
        exact hmem
      have heq : xs.filter (fun y => f y ≠ a) = xs :=
        List.filter_eq_self.mpr (fun y hy => by simpa using hall y hy)
      rw [List.filter_cons, if_neg (by simp [hx]), heq]
      simp
    · have := ih h.2
      rw [List.filter_cons, if_pos (by simp [hx])]
      simp only [List.length_cons]
      omega

/-- Mapping an id-preserving function over the tabs leaves the id list
unchanged. -/
lemma map_id_of_preserve (f : EditorTab → EditorTab)
    (h : ∀ t, (f t).id = t.id) (l : List EditorTab) :
    (l.map f).map (·.id) = l.map (·.id) := by
  induction l with
  | nil => rfl
  | cons x xs ih => simp [h, ih]

/-! ## The editor-tab invariant (claim C1) -/

/-- The editor-tab invariant: at least one editor tab exists and tab ids
are pairwise distinct (`nanoid()` never repeats an id). -/
def TabInv (s : AppState) : Prop := s.tabIds ≠ [] ∧ s.tabIds.Nodup

/-! Operations that do not touch `queryTabs` leave the id list unchanged. -/

lemma tabIds_tabDoubleClick (tabId currentName : String) (s : AppState) :
    (handleTabDoubleClick tabId currentName s).tabIds = s.tabIds := rfl

lemma tabIds_renameEscape (s : AppState) :
    (handleRenameEscape s).tabIds = s.tabIds := rfl

lemma tabIds_syncFromTab (s : AppState) :
    (syncFromTabEffect s).tabIds = s.tabIds := by
  unfold syncFromTabEffect AppState.tabIds
  repeat' split
  all_goals rfl

lemma tabIds_editText (text : String) (s : AppState) :
    (editQueryText text s).tabIds = s.tabIds := rfl

lemma tabIds_currentQueryEffect (c : List QueryDefinition) (s : AppState) :
    (currentQueryEffect c s).tabIds = s.tabIds := by
  unfold currentQueryEffect AppState.tabIds
  repeat' split
  all_goals rfl

lemma tabIds_handleExecuteQuery (c : List QueryDefinition) (q f : String)
    (now : Nat) (s : AppState) :
    (handleExecuteQuery c q f now s).tabIds = s.tabIds := by
  unfold handleExecuteQuery AppState.tabIds
  try dsimp only
  repeat' split
  all_goals rfl

lemma tabIds_onQueryComplete (outId : String)
    (rows : Option (List (List String))) (execTime : Option Nat)
    (s : AppState) :
    (onQueryComplete outId rows execTime s).tabIds = s.tabIds := by
  unfold onQueryComplete AppState.tabIds
  repeat' split
  all_goals rfl

lemma tabIds_createVisualizationTab (srcId f : String) (now : Nat)
    (s : AppState) :
    (createVisualizationTab srcId f now s).tabIds = s.tabIds := by
  unfold createVisualizationTab AppState.tabIds
  repeat' split
  all_goals rfl

lemma tabIds_closeOutputTab (tabId : String) (confirm : Bool) (s : AppState) :
    (closeOutputTab tabId confirm s).tabIds = s.tabIds := by
  unfold closeOutputTab AppState.tabIds
  try dsimp only
  repeat' split
  all_goals rfl

lemma tabIds_handleClearResults (confirm : Bool) (s : AppState) :
    (handleClearResults confirm s).tabIds = s.tabIds := by
  unfold handleClearResults AppState.tabIds
  try dsimp only
  repeat' split
  all_goals rfl

lemma tabIds_handleTabClick (c : List QueryDefinition) (tabId : String)
    (s : AppState) :
    (handleTabClick c tabId s).tabIds = s.tabIds := by
  unfold handleTabClick AppState.tabIds
  try dsimp only
  repeat' split
  all_goals rfl

lemma tabIds_historySelectComplete (outId name queryId srcTabId : String)
    (now : Nat) (rows : Option (List (List String))) (execTime : Option Nat)
    (s : AppState) :
    (historySelectComplete outId name queryId srcTabId now rows execTime
      s).tabIds = s.tabIds := by
  unfold historySelectComplete AppState.tabIds
  repeat' split
  all_goals rfl

lemma tabIds_toggleLayoutDirection (s : AppState) :
    (toggleLayoutDirection s).tabIds = s.tabIds := rfl

lemma tabIds_toggleFullScreen (s : AppState) :
    (toggleFullScreen s).tabIds = s.tabIds := rfl

lemma tabIds_fullScreenAutoExitEffect (s : AppState) :
    (fullScreenAutoExitEffect s).tabIds = s.tabIds := by
  unfold fullScreenAutoExitEffect AppState.tabIds
  repeat' split
  all_goals rfl

lemma tabIds_resizeMove (d : Bool) (a b p e : ℚ) (s : AppState) :
    (resizeMove d a b p e s).tabIds = s.tabIds := by
  unfold resizeMove AppState.tabIds
  repeat' split
  all_goals rfl

/-! Operations that update tabs in place preserve the id list. -/

lemma tabIds_handleTabRename (s : AppState) :
    (handleTabRename s).tabIds = s.tabIds := by
  unfold handleTabRename AppState.tabIds
  try dsimp only
  repeat' split
  all_goals first
  | rfl
  | exact map_id_of_preserve _ (fun t => by split <;> rfl) _

lemma tabIds_handleQueryChange (c : List QueryDefinition) (queryId : String)
    (s : AppState) :
    (handleQueryChange c queryId s).tabIds = s.tabIds := by
  unfold handleQueryChange AppState.tabIds
  try dsimp only
  repeat' split
  all_goals first
  | rfl
  | exact map_id_of_preserve _ (fun t => by split <;> rfl) _

lemma tabIds_deriveNameEffect (s : AppState) :
    (deriveNameEffect s).tabIds = s.tabIds := by
  unfold deriveNameEffect AppState.tabIds
  try dsimp only
  repeat' split
  all_goals first
  | rfl
  | exact map_id_of_preserve _ (fun t => by split <;> rfl) _

lemma tabIds_syncFromEditorEffect (s : AppState) :
    (syncFromEditorEffect s).tabIds = s.tabIds := by
  unfold syncFromEditorEffect AppState.tabIds
  try dsimp only
  repeat' split
  all_goals first
  | rfl
  | exact map_id_of_preserve _ (fun t => by split <;> rfl) _

/-! Operations that append a freshly-identified tab, and tab closing. -/

lemma tabIds_addNewTab (c : List QueryDefinition) (freshId : String)
    (s : AppState) :
    (addNewTab c freshId s).tabIds = s.tabIds ++ [freshId] := by
  unfold addNewTab AppState.tabIds
  try dsimp only
  simp

lemma tabIds_handleTableClick (c : List QueryDefinition)
    (freshId tableName : String) (customSQL : Option String) (s : AppState) :
    (handleTableClick c freshId tableName customSQL s).tabIds =
      s.tabIds ++ [freshId] := by
  unfold handleTableClick AppState.tabIds
  try dsimp only
  repeat' split
  all_goals simp

lemma tabIds_handleHistorySelect (c : List QueryDefinition)
    (item : HistoryItem) (freshTabId freshOutputId : String)
    (shouldExecute : Bool) (s : AppState) :
    (handleHistorySelect c item freshTabId freshOutputId shouldExecute
        s).tabIds = s.tabIds ++ [freshTabId] ∨
      (handleHistorySelect c item freshTabId freshOutputId shouldExecute
        s).tabIds = s.tabIds := by
  unfold handleHistorySelect AppState.tabIds
  try dsimp only
  repeat' split
  all_goals first
  | (right; rfl)
  | (left; simp)

lemma queryTabs_closeTab (tabId : String) (s : AppState) :
    (closeTab tabId s).queryTabs =
      if s.queryTabs.length = 1 then s.queryTabs
      else s.queryTabs.filter (fun t => t.id ≠ tabId) := by
  unfold closeTab
  try dsimp only
  repeat' split
  all_goals rfl

/-- An operation that leaves the id list unchanged preserves the
invariant. -/
lemma tabInv_of_eq {s s' : AppState} (h : TabInv s)
    (he : s'.tabIds = s.tabIds) : TabInv s' :=
  ⟨he ▸ h.1, he ▸ h.2⟩

/-- An operation that appends a fresh id preserves the invariant. -/
lemma tabInv_of_append {s s' : AppState} {freshId : String} (h : TabInv s)
    (hfresh : freshId ∉ s.tabIds)
    (he : s'.tabIds = s.tabIds ++ [freshId]) : TabInv s' := by
  constructor
  · rw [he]; simp
  · rw [he, List.nodup_append]
    refine ⟨h.2, by simp, ?_⟩
    intro a ha hb
    rw [List.mem_singleton] at hb
    exact hfresh (hb ▸ ha)

/-- Closing a tab preserves the invariant. -/
lemma tabInv_closeTab (tabId : String) (s : AppState) (h : TabInv s) :
    TabInv (closeTab tabId s) := by
  have hq := queryTabs_closeTab tabId s
  by_cases hlen : s.queryTabs.length = 1
  · rw [if_pos hlen] at hq
    exact tabInv_of_eq h (by unfold AppState.tabIds; rw [hq])
  · rw [if_neg hlen] at hq
    have hne : s.queryTabs ≠ [] := by
      intro hnil
      exact h.1 (by simp [AppState.tabIds, hnil])
    have hlen1 : 1 ≤ s.queryTabs.length := List.length_pos.mpr hne
    have hlen2 : 2 ≤ s.queryTabs.length := by
      rcases Nat.lt_or_ge s.queryTabs.length 2 with hl | hl
      · interval_cases hh : s.queryTabs.length <;> omega
      · exact hl
    have hnd : (s.queryTabs.map (fun t => t.id)).Nodup := h.2
    have hflen : s.queryTabs.length - 1 ≤
        (s.queryTabs.filter (fun t => t.id ≠ tabId)).length :=
      length_filter_ne_of_nodup (fun t => t.id) tabId s.queryTabs hnd
    have hfne : s.queryTabs.filter (fun t => t.id ≠ tabId) ≠ [] := by
      intro hnil
      rw [hnil] at hflen
      simp at hflen
      omega
    constructor
    · unfold AppState.tabIds
      rw [hq]
      simpa using hfne
    · unfold AppState.tabIds
      rw [hq]
      have hnd : (s.queryTabs.map (fun t => t.id)).Nodup := h.2
      exact List.Nodup.sublist
        (List.Sublist.map (fun (t : EditorTab) => t.id)
          (List.filter_sublist s.queryTabs)) hnd

/-- Every operation preserves the editor-tab invariant. -/
lemma tabInv_step {c : List QueryDefinition} {s s' : AppState}
    (h : TabInv s) (hs : Step c s s') : TabInv s' := by
  cases hs with
  | addNewTab freshId hfresh =>
    exact tabInv_of_append h hfresh (tabIds_addNewTab c freshId s)
  | closeTab tabId => exact tabInv_closeTab tabId s h
  | tabDoubleClick tabId currentName =>
    exact tabInv_of_eq h (tabIds_tabDoubleClick tabId currentName s)
  | tabRename => exact tabInv_of_eq h (tabIds_handleTabRename s)
  | renameEscape => exact tabInv_of_eq h (tabIds_renameEscape s)
  | queryChange queryId =>
    exact tabInv_of_eq h (tabIds_handleQueryChange c queryId s)
  | deriveName => exact tabInv_of_eq h (tabIds_deriveNameEffect s)
  | syncFromTab => exact tabInv_of_eq h (tabIds_syncFromTab s)
  | syncFromEditor => exact tabInv_of_eq h (tabIds_syncFromEditorEffect s)
  | editText text => exact tabInv_of_eq h (tabIds_editText text s)
  | currentQuery => exact tabInv_of_eq h (tabIds_currentQueryEffect c s)
  | execute query freshId now =>
    exact tabInv_of_eq h (tabIds_handleExecuteQuery c query freshId now s)
  | queryComplete outId rows execTime =>
    exact tabInv_of_eq h (tabIds_onQueryComplete outId rows execTime s)
  | visualization sourceTabId freshId now =>
    exact tabInv_of_eq h (tabIds_createVisualizationTab sourceTabId freshId now s)
  | closeOutput tabId confirm =>
    exact tabInv_of_eq h (tabIds_closeOutputTab tabId confirm s)
  | clearResults confirm =>
    exact tabInv_of_eq h (tabIds_handleClearResults confirm s)
  | tabClick tabId => exact tabInv_of_eq h (tabIds_handleTabClick c tabId s)
  | tableClick freshId tableName customSQL hfresh =>
    exact tabInv_of_append h hfresh
      (tabIds_handleTableClick c freshId tableName customSQL s)
  | historySelect item freshTabId freshOutputId shouldExecute hfresh =>
    rcases tabIds_handleHistorySelect c item freshTabId freshOutputId
        shouldExecute s with he | he
    · exact tabInv_of_append h hfresh he
    · exact tabInv_of_eq h he
  | historyComplete outId name queryId srcTabId now rows execTime =>
    exact tabInv_of_eq h
      (tabIds_historySelectComplete outId name queryId srcTabId now rows
        execTime s)
  | toggleLayout => exact tabInv_of_eq h (tabIds_toggleLayoutDirection s)
  | toggleFull => exact tabInv_of_eq h (tabIds_toggleFullScreen s)
  | fullAutoExit => exact tabInv_of_eq h (tabIds_fullScreenAutoExitEffect s)
  | resize isDragging a b p e =>
    exact tabInv_of_eq h (tabIds_resizeMove isDragging a b p e s)

/-- Every reachable state satisfies the editor-tab invariant. -/
lemma reachable_tabInv {c : List QueryDefinition} {s : AppState}
    (h : Reachable c s) : TabInv s := by
  induction h with
  | init tabId =>
    constructor
    · simp [initialState, AppState.tabIds]
    · simp [initialState, AppState.tabIds]
  | step _ hs ih => exact tabInv_step ih hs

/-! ## Concrete example data (used by witnesses and counterexamples)

The catalog entries follow the shape the specification gives in §6 and §8
(`{id:"q1", name:"All Users", query:"SELECT * FROM users;"}`). -/

def exCatalog : List QueryDefinition :=
  [⟨"q1", "All Users", "SELECT * FROM users;"⟩,
   ⟨"q2", "All Orders", "SELECT * FROM orders LIMIT 10;"⟩]

def exState : AppState := initialState exCatalog "tab-1"

def exTabA : EditorTab := ⟨"a", "Tab A", "q1", "SELECT * FROM users;", false⟩

def exTabB : EditorTab := ⟨"b", "Tab B", "q2", "SELECT * FROM orders LIMIT 10;", true⟩

def exOutA : OutputTab := ⟨"oa", "Tab A Output", "q1", some "a", none, 1⟩

def exOutB : OutputTab := ⟨"ob", "Tab B Output", "q2", some "b", none, 2⟩

/-! ## Claim theorems -/

/-- C1: for every reachable state of the coordinator and every tab id,
`closeEditorTab(id)` is a no-op when exactly one editor tab exists (state
unchanged, no error), and in every reachable state the editor-tab count is
at least 1. -/
theorem C1_closeTab_guard_and_tab_count (c : List QueryDefinition)
    (s : AppState) (h : Reachable c s) (tabId : String) :
    (s.queryTabs.length = 1 → closeTab tabId s = s) ∧
    1 ≤ s.queryTabs.length := by
  have hinv := reachable_tabInv h
  constructor
  · intro h1
    unfold closeTab
    rw [if_pos h1]
  · have hne : s.queryTabs ≠ [] := by
      intro hnil
      exact hinv.1 (by simp [AppState.tabIds, hnil])
    exact List.length_pos.mpr hne

/-- Witness for C1 at the initial state: one tab exists, closing it is a
no-op, and the tab count is positive. -/
theorem C1_witness :
    (initialState exCatalog "tab-1").queryTabs.length = 1 ∧
    closeTab "tab-1" (initialState exCatalog "tab-1") =
      initialState exCatalog "tab-1" ∧
    1 ≤ (initialState exCatalog "tab-1").queryTabs.length :=
  ⟨rfl,
   (C1_closeTab_guard_and_tab_count exCatalog _ (Reachable.init "tab-1")
     "tab-1").1 rfl,
   (C1_closeTab_guard_and_tab_count exCatalog _ (Reachable.init "tab-1")
     "tab-1").2⟩

/-- C6: after `clearAllOutputTabs` is confirmed, the output-tab list, the
result-payload map and the kind map are empty and the active output-tab id
is null. -/
theorem C6_clearAll_confirmed_empties (s : AppState) :
    (handleClearResults true s).outputTabs = [] ∧
    (handleClearResults true s).tabResults = [] ∧
    (handleClearResults true s).tabTypes = [] ∧
    (handleClearResults true s).activeOutputTabId = none := by
  unfold handleClearResults
  dsimp only
  rw [if_neg (show ¬¬(true = true) from not_not_intro rfl)]
  exact ⟨rfl, rfl, rfl, rfl⟩

/-- C7 counterexample: declining the clear-all confirmation while in full
screen still exits full screen (the code resets the flag before showing
the prompt), so the state is not left unchanged. -/
theorem C7_counterexample :
    handleClearResults false { exState with isFullScreen := true } ≠
      { exState with isFullScreen := true } := by
  intro h
  have h2 := congrArg AppState.isFullScreen h
  simp [handleClearResults] at h2

/-- C7 amended: declining the confirmation of `closeOutputTab` leaves the
whole state unchanged; declining the confirmation of clear-all leaves
everything unchanged except the full-screen flag, which has already been
reset to false before the prompt. -/
theorem C7_decline_leaves_state (s : AppState) (tabId : String) :
    closeOutputTab tabId false s = s ∧
    handleClearResults false s = { s with isFullScreen := false } := by
  constructor
  · unfold closeOutputTab
    simp
  · have hstep : (if s.isFullScreen then { s with isFullScreen := false }
        else s) = { s with isFullScreen := false } := by
      cases hfs : s.isFullScreen
      · rw [if_neg (by simp [hfs])]
        cases s
        simp_all
      · rw [if_pos (by simp [hfs])]
    unfold handleClearResults
    dsimp only
    rw [if_pos (show ¬(false = true) by simp), hstep]

/-- C10: committing a tab rename with a draft whose trimmed form is
nonempty stores the trimmed draft (not the draft as typed) as the tab's
name and sets `renamed` in the same commit; the transient rename state is
reset. -/
theorem C10_rename_commits_trimmed (s : AppState) (tid : String)
    (hedit : s.editingTabId = some tid) (hne : jsTrim s.newTabName ≠ "") :
    (∀ t' ∈ (handleTabRename s).queryTabs, t'.id = tid →
       t'.name = jsTrim s.newTabName ∧ t'.renamed = true) ∧
    (handleTabRename s).editingTabId = none ∧
    (handleTabRename s).newTabName = "" := by
  refine ⟨?_, rfl, rfl⟩
  intro t' ht' hid
  unfold handleTabRename at ht'
  rw [hedit] at ht'
  dsimp only at ht'
  rw [if_pos hne] at ht'
  obtain ⟨u, hu, rfl⟩ := List.mem_map.mp ht'
  by_cases hu2 : u.id = tid
  · rw [if_pos hu2]
    exact ⟨rfl, rfl⟩
  · rw [if_neg hu2] at hid ⊢
    exact absurd hid hu2

def exStateRename : AppState :=
  { exState with editingTabId := some "tab-1", newTabName := "  My Tab  " }

/-- Witness for C10: committing the draft `"  My Tab  "` stores the name
`"My Tab"` with `renamed = true`. -/
theorem C10_witness :
    exStateRename.editingTabId = some "tab-1" ∧
    jsTrim exStateRename.newTabName ≠ "" ∧
    ∀ t' ∈ (handleTabRename exStateRename).queryTabs, t'.id = "tab-1" →
      t'.name = "My Tab" ∧ t'.renamed = true := by
  refine ⟨rfl, by decide, ?_⟩
  intro t' ht' hid
  obtain ⟨h1, h2⟩ :=
    (C10_rename_commits_trimmed exStateRename "tab-1" rfl (by decide)).1
      t' ht' hid
  refine ⟨?_, h2⟩
  rw [h1]
  decide

/-- C8: with at least two editor tabs (distinct ids), closing the active
tab activates the tab that is last in the remaining ordered sequence, and
closing a non-active tab leaves the active selection unchanged. -/
theorem C8_closeTab_activates_last (s : AppState) (tabId : String)
    (hlen : 2 ≤ s.queryTabs.length)
    (hnd : (s.queryTabs.map (fun t => t.id)).Nodup) :
    (tabId = s.activeTabId →
      ∃ t, (s.queryTabs.filter (fun t => t.id ≠ tabId)).getLast? = some t ∧
        (closeTab tabId s).activeTabId = t.id) ∧
    (tabId ≠ s.activeTabId →
      (closeTab tabId s).activeTabId = s.activeTabId) := by
  have hlen1 : ¬s.queryTabs.length = 1 := by omega
  have hflen : s.queryTabs.length - 1 ≤
      (s.queryTabs.filter (fun t => t.id ≠ tabId)).length :=
    length_filter_ne_of_nodup (fun t => t.id) tabId s.queryTabs hnd
  have hfne : s.queryTabs.filter (fun t => t.id ≠ tabId) ≠ [] := by
    intro hnil
    rw [hnil] at hflen
    simp at hflen
    omega
  obtain ⟨t, ht⟩ : ∃ t,
      (s.queryTabs.filter (fun t => t.id ≠ tabId)).getLast? = some t := by
    cases hcase : (s.queryTabs.filter (fun t => t.id ≠ tabId)).getLast? with
    | some t => exact ⟨t, rfl⟩
    | none => exact absurd (List.getLast?_eq_none_iff.mp hcase) hfne
  constructor
  · intro hact
    refine ⟨t, ht, ?_⟩
    unfold closeTab
    rw [if_neg hlen1]
    dsimp only
    rw [if_pos hact, ht]
  · intro hact
    unfold closeTab
    rw [if_neg hlen1]
    dsimp only
    rw [if_neg hact]

def exState8 : AppState :=
  { exState with queryTabs := [exTabA, exTabB], activeTabId := "a" }

/-- Witness for C8: closing active tab `a` of `[a, b]` activates `b`, the
last remaining tab; closing `b` (non-active) keeps `a` active. -/
theorem C8_witness :
    (closeTab "a" exState8).activeTabId = "b" ∧
    (closeTab "b" exState8).activeTabId = "a" := by
  constructor
  · obtain ⟨t, ht1, ht2⟩ :=
      (C8_closeTab_activates_last exState8 "a" (by decide) (by decide)).1 rfl
    have hlast : (exState8.queryTabs.filter (fun t => t.id ≠ "a")).getLast? =
        some exTabB := by decide
    have : t = exTabB := Option.some.inj (ht1.symm.trans hlast)
    rw [ht2, this]
    rfl
  · exact (C8_closeTab_activates_last exState8 "b" (by decide)
      (by decide)).2 (by decide)

/-- C5: when the confirmed `closeOutputTab(id)` closes the active output
tab, the remaining tab with the greatest `createdAt` timestamp becomes
active; when no tab remains, the active-output selection becomes null and
the displayed result state is cleared. -/
theorem C5_closeOutputTab_activates_most_recent (s : AppState)
    (tabId : String) (hact : s.activeOutputTabId = some tabId) :
    ((s.outputTabs.filter (fun t => t.id ≠ tabId)) ≠ [] →
      ∃ m, m ∈ s.outputTabs.filter (fun t => t.id ≠ tabId) ∧
        (∀ u ∈ s.outputTabs.filter (fun t => t.id ≠ tabId),
          u.timestamp ≤ m.timestamp) ∧
        (closeOutputTab tabId true s).activeOutputTabId = some m.id) ∧
    ((s.outputTabs.filter (fun t => t.id ≠ tabId)) = [] →
      (closeOutputTab tabId true s).activeOutputTabId = none ∧
      (closeOutputTab tabId true s).hookResults = none) := by
  unfold closeOutputTab
  rw [if_neg (show ¬¬(true = true) from not_not_intro rfl)]
  dsimp only
  rw [if_pos hact]
  constructor
  · intro hne
    cases hcase : s.outputTabs.filter (fun t => t.id ≠ tabId) with
    | nil => exact absurd hcase hne
    | cons t ts =>
      refine ⟨ts.foldl mostRecentReduce t, ?_, ?_, ?_⟩
      · exact foldl_mostRecent_mem t ts
      · exact foldl_mostRecent_le t ts
      · rfl
  · intro hnil
    rw [hnil]
    exact ⟨rfl, rfl⟩

def exState5 : AppState :=
  { exState with outputTabs := [exOutA, exOutB],
                 activeOutputTabId := some "oa" }

/-- Witness for C5: closing active output tab `oa` while `ob` (created
later) exists makes `ob` active; closing the only output tab clears the
selection and the displayed results. -/
theorem C5_witness :
    (closeOutputTab "oa" true exState5).activeOutputTabId = some "ob" ∧
    (closeOutputTab "oa" true
        { exState with outputTabs := [exOutA],
                       activeOutputTabId := some "oa" }).activeOutputTabId =
      none := by
  constructor
  · obtain ⟨m, hm, hmax, heq⟩ :=
      (C5_closeOutputTab_activates_most_recent exState5 "oa" rfl).1
        (by decide)
    have hfil : exState5.outputTabs.filter (fun t => t.id ≠ "oa") =
        [exOutB] := by decide
    rw [hfil] at hm
    have : m = exOutB := List.mem_singleton.mp hm
    rw [heq, this]
    rfl
  · exact ((C5_closeOutputTab_activates_most_recent
      { exState with outputTabs := [exOutA],
                     activeOutputTabId := some "oa" } "oa" rfl).2
      (by decide)).1

/-- With pairwise-distinct ids, two tabs of the list with the same id are
equal. -/
lemma eq_of_mem_of_id_eq {l : List EditorTab}
    (hnd : (l.map (fun t => t.id)).Nodup) {t u : EditorTab}
    (hu : u ∈ l) (ht : t ∈ l) (hid : u.id = t.id) : u = t :=
  List.inj_on_of_nodup_map hnd hu ht hid

/-- With pairwise-distinct ids, the member of the mapped list sharing an
id with `t` is the image of `t`, provided the map preserves ids. -/
lemma mem_map_update_eq {l : List EditorTab}
    (hnd : (l.map (fun t => t.id)).Nodup)
    (f : EditorTab → EditorTab) (hf : ∀ t, (f t).id = t.id)
    {t t' : EditorTab} (ht : t ∈ l) (ht' : t' ∈ l.map f)
    (hid : t'.id = t.id) : t' = f t := by
  obtain ⟨u, hu, rfl⟩ := List.mem_map.mp ht'
  have h2 : u.id = t.id := (hf u) ▸ hid
  rw [eq_of_mem_of_id_eq hnd hu ht h2]

/-- C2 (amended): the derivation effect names the active non-renamed tab
per the source's pattern (with target class `[^\s;]+`); a manually renamed
tab keeps its name under the derivation effect, the editor→tab text
synchronization, and the dropdown query change. -/
theorem C2_name_derivation_and_renamed (s : AppState)
    (hnd : (s.queryTabs.map (fun t => t.id)).Nodup) :
    (∀ t' ∈ (deriveNameEffect s).queryTabs,
        t'.id = s.activeTabId → t'.renamed = false →
        t'.name = deriveTabName t'.query) ∧
    (∀ t ∈ s.queryTabs, t.renamed = true →
        ∀ t' ∈ (deriveNameEffect s).queryTabs, t'.id = t.id →
          t'.name = t.name ∧ t'.renamed = true) ∧
    (∀ t ∈ s.queryTabs, t.renamed = true →
        ∀ t' ∈ (syncFromEditorEffect s).queryTabs, t'.id = t.id →
          t'.name = t.name ∧ t'.renamed = true) ∧
    (∀ (c : List QueryDefinition) (qid : String),
        ∀ t ∈ s.queryTabs, t.renamed = true →
        ∀ t' ∈ (handleQueryChange c qid s).queryTabs, t'.id = t.id →
          t'.name = t.name ∧ t'.renamed = true) := by
  refine ⟨?_, ?_, ?_, ?_⟩
  · intro t' ht' hid hren
    unfold deriveNameEffect at ht'
    cases hfind : s.queryTabs.find? (fun t => t.id = s.activeTabId) with
    | none =>
      rw [hfind] at ht'
      dsimp only at ht'
      have hno := List.find?_eq_none.mp hfind t' ht'
      simp only [decide_eq_true_eq] at hno
      exact absurd hid hno
    | some tab =>
      rw [hfind] at ht'
      dsimp only at ht'
      have htab_mem := List.mem_of_find?_eq_some hfind
      have htab_id : tab.id = s.activeTabId := by
        have := List.find?_some hfind
        simpa using this
      by_cases hren2 : tab.renamed = true
      · rw [if_pos hren2] at ht'
        have heq : t' = tab :=
          eq_of_mem_of_id_eq hnd ht' htab_mem (by rw [hid, htab_id])
        rw [heq] at hren
        rw [hren2] at hren
        cases hren
      · rw [if_neg hren2] at ht'
        try dsimp only at ht'
        by_cases hname : deriveTabName tab.query ≠ tab.name
        · rw [if_pos hname] at ht'
          try dsimp only at ht'
          have heq := mem_map_update_eq hnd
            (fun u => if u.id = s.activeTabId then
              { u with name := deriveTabName tab.query } else u)
            (fun u => by dsimp only; split <;> rfl)
            htab_mem ht' (by rw [hid, htab_id])
          dsimp only at heq
          rw [if_pos htab_id] at heq
          rw [heq]
        · rw [if_neg hname] at ht'
          push_neg at hname
          have heq : t' = tab :=
            eq_of_mem_of_id_eq hnd ht' htab_mem (by rw [hid, htab_id])
          rw [heq, ← hname]
  · intro t ht htren t' ht' hid
    unfold deriveNameEffect at ht'
    cases hfind : s.queryTabs.find? (fun t => t.id = s.activeTabId) with
    | none =>
      rw [hfind] at ht'
      dsimp only at ht'
      rw [eq_of_mem_of_id_eq hnd ht' ht hid]
      exact ⟨rfl, htren⟩
    | some tab =>
      rw [hfind] at ht'
      dsimp only at ht'
      have htab_mem := List.mem_of_find?_eq_some hfind
      have htab_id : tab.id = s.activeTabId := by
        have := List.find?_some hfind
        simpa using this
      by_cases hren2 : tab.renamed = true
      · rw [if_pos hren2] at ht'
        rw [eq_of_mem_of_id_eq hnd ht' ht hid]
        exact ⟨rfl, htren⟩
      · rw [if_neg hren2] at ht'
        try dsimp only at ht'
        by_cases hname : deriveTabName tab.query ≠ tab.name
        · rw [if_pos hname] at ht'
          try dsimp only at ht'
          have heq := mem_map_update_eq hnd
            (fun u => if u.id = s.activeTabId then
              { u with name := deriveTabName tab.query } else u)
            (fun u => by dsimp only; split <;> rfl)
            ht ht' hid
          dsimp only at heq
          by_cases hactive : t.id = s.activeTabId
          · have : t = tab :=
              eq_of_mem_of_id_eq hnd ht htab_mem (by rw [hactive, htab_id])
            rw [this] at htren
            exact absurd htren hren2
          · rw [if_neg hactive] at heq
            rw [heq]
            exact ⟨rfl, htren⟩
        · rw [if_neg hname] at ht'
          rw [eq_of_mem_of_id_eq hnd ht' ht hid]
          exact ⟨rfl, htren⟩
  · intro t ht htren t' ht' hid
    unfold syncFromEditorEffect at ht'
    cases hfind : s.queryTabs.find? (fun t => t.id = s.activeTabId) with
    | none =>
      rw [hfind] at ht'
      dsimp only at ht'
      rw [eq_of_mem_of_id_eq hnd ht' ht hid]
      exact ⟨rfl, htren⟩
    | some tab =>
      rw [hfind] at ht'
      dsimp only at ht'
      by_cases hcond : tab.query ≠ s.queryText ∨ tab.queryId ≠ s.currentQueryId
      · rw [if_pos hcond] at ht'
        try dsimp only at ht'
        have heq := mem_map_update_eq hnd
          (fun u => if u.id = s.activeTabId then
            { u with query := s.queryText, queryId := s.currentQueryId }
            else u)
          (fun u => by dsimp only; split <;> rfl)
          ht ht' hid
        dsimp only at heq
        by_cases hactive : t.id = s.activeTabId
        · rw [if_pos hactive] at heq
          rw [heq]
          exact ⟨rfl, htren⟩
        · rw [if_neg hactive] at heq
          rw [heq]
          exact ⟨rfl, htren⟩
      · rw [if_neg hcond] at ht'
        rw [eq_of_mem_of_id_eq hnd ht' ht hid]
        exact ⟨rfl, htren⟩
  · intro c qid t ht htren t' ht' hid
    unfold handleQueryChange at ht'
    cases hfind : c.find? (fun q => q.id = qid) with
    | none =>
      rw [hfind] at ht'
      dsimp only at ht'
      rw [eq_of_mem_of_id_eq hnd ht' ht hid]
      exact ⟨rfl, htren⟩
    | some q =>
      rw [hfind] at ht'
      dsimp only at ht'
      have heq := mem_map_update_eq hnd
        (fun u => if u.id = s.activeTabId then
          { u with name := if u.renamed then u.name else q.name,
                   queryId := qid, query := q.query } else u)
        (fun u => by dsimp only; split <;> rfl)
        ht ht' hid
      dsimp only at heq
      by_cases hactive : t.id = s.activeTabId
      · rw [if_pos hactive] at heq
        rw [heq]
        refine ⟨?_, htren⟩
        dsimp only
        rw [if_pos htren]
      · rw [if_neg hactive] at heq
        rw [heq]
        exact ⟨rfl, htren⟩

def exStateC2 : AppState :=
  { exState with
    queryTabs := [⟨"t1", "Old Name", "q1", "SELECT * FROM users;", false⟩]
    activeTabId := "t1" }

/-- C2 counterexample: on `"SELECT * FROM users;"` the code's pattern
(target `[^\s;]+`) derives the name `"SELECT users"`, while the pattern as
the claim writes it (target `\S+`) would derive `"SELECT users;"`. -/
theorem C2_counterexample :
    (deriveNameEffect exStateC2).queryTabs.map (fun t => t.name) =
      ["SELECT users"] ∧
    deriveTabNameSpec "SELECT * FROM users;" = "SELECT users;" ∧
    ("SELECT users" : String) ≠ "SELECT users;" :=
  ⟨rfl, rfl, by decide⟩

/-- Witness for C2 at a two-tab state (one derived, one renamed). -/
theorem C2_witness :
    ((exState8.queryTabs.map (fun t => t.id)).Nodup) ∧
    (∀ t' ∈ (deriveNameEffect exState8).queryTabs,
      t'.id = exState8.activeTabId → t'.renamed = false →
      t'.name = deriveTabName t'.query) :=
  ⟨by decide, (C2_name_derivation_and_renamed exState8 (by decide)).1⟩

/-- C3 (amended): on a catalog match (trimmed text equality), exactly one
new output tab named `"<active tab name> Output"` is appended, of kind
`results`; it becomes the active output tab; execution is requested from
the adapter; the error is cleared — but the active panel is left
unchanged.  On no match, the user-visible error message is set and the
only other change is that the query-modified flag is cleared. -/
theorem C3_handleExecuteQuery_spec (c : List QueryDefinition)
    (q freshId : String) (now : Nat) (s : AppState) (tab : EditorTab)
    (htab : s.queryTabs.find? (fun t => t.id = s.activeTabId) = some tab) :
    (∀ mq, c.find? (fun p => jsTrim p.query = jsTrim q) = some mq →
      (handleExecuteQuery c q freshId now s).outputTabs =
        s.outputTabs ++ [⟨freshId, tab.name ++ " Output", mq.id,
          some s.activeTabId, none, now⟩] ∧
      (handleExecuteQuery c q freshId now s).activeOutputTabId =
        some freshId ∧
      (handleExecuteQuery c q freshId now s).tabTypes.lookup freshId =
        some TabKind.results ∧
      (handleExecuteQuery c q freshId now s).activePanel = s.activePanel ∧
      (handleExecuteQuery c q freshId now s).execRequests =
        s.execRequests ++ [⟨q, mq.id, tab.name⟩] ∧
      (handleExecuteQuery c q freshId now s).customError = none) ∧
    (c.find? (fun p => jsTrim p.query = jsTrim q) = none →
      handleExecuteQuery c q freshId now s =
        { s with
          customError := some
            "You can only execute queries from the predefined list. Please select a query from the dropdown.",
          queryModified := false }) := by
  constructor
  · intro mq hmq
    unfold handleExecuteQuery
    dsimp only
    rw [hmq]
    dsimp only
    rw [htab]
    exact ⟨rfl, rfl, lookup_setKey_self _ _ _, rfl, rfl, rfl⟩
  · intro hmq
    unfold handleExecuteQuery
    dsimp only
    rw [hmq]

/-- C3 counterexample: executing the matching text `"SELECT * FROM
users;"` from the initial state creates an output tab but leaves the
active panel at `"editor-panel"` (the code never switches it to
`"results-panel"`); executing a non-matching text with the query-modified
flag set clears that flag, so the failure path is not free of state
changes. -/
theorem C3_counterexample :
    (handleExecuteQuery exCatalog "SELECT * FROM users;" "out-1" 5
      exState).outputTabs.length = 1 ∧
    (handleExecuteQuery exCatalog "SELECT * FROM users;" "out-1" 5
      exState).activePanel = "editor-panel" ∧
    ("editor-panel" : String) ≠ "results-panel" ∧
    ({ exState with queryModified := true } : AppState).queryModified =
      true ∧
    (handleExecuteQuery exCatalog "bogus" "out-2" 5
      { exState with queryModified := true }).queryModified = false :=
  ⟨rfl, rfl, by decide, rfl, rfl⟩

/-- Witness for C3 at the initial state with the catalog of §8. -/
theorem C3_witness :
    exState.queryTabs.find? (fun t => t.id = exState.activeTabId) =
      some ⟨"tab-1", "New Query", "q1", "SELECT * FROM users;", false⟩ ∧
    (handleExecuteQuery exCatalog "SELECT * FROM users;" "out-1" 5
      exState).outputTabs =
      exState.outputTabs ++ [⟨"out-1", "New Query Output", "q1",
        some exState.activeTabId, none, 5⟩] ∧
    (handleExecuteQuery exCatalog "bogus" "out-2" 5 exState) =
      { exState with
        customError := some
          "You can only execute queries from the predefined list. Please select a query from the dropdown.",
        queryModified := false } := by
  refine ⟨rfl, ?_, ?_⟩
  · exact ((C3_handleExecuteQuery_spec exCatalog "SELECT * FROM users;"
      "out-1" 5 exState _ rfl).1 ⟨"q1", "All Users", "SELECT * FROM users;"⟩
      rfl).1
  · exact (C3_handleExecuteQuery_spec exCatalog "bogus" "out-2" 5 exState
      ⟨"tab-1", "New Query", "q1", "SELECT * FROM users;", false⟩ rfl).2 rfl

def exP1 : ResultPayload := ⟨[["1"]], some 3⟩

def exP2 : ResultPayload := ⟨[["2"]], some 4⟩

def exRef : RefPayloadState :=
  { outputTabs := [⟨"oa", "Tab A Output", "q1", some "a", none, 1⟩]
    activeOutputTabId := some "oa"
    tabResults := [("oa", 0)]
    tabTypes := [("oa", TabKind.results)]
    store := [(0, exP1)] }

/-- C4 counterexample: `createVisualizationTab` stores
`prevResults[sourceTabId]` — the same payload reference, not a clone — so
at the reference level, mutating the source tab's payload object in place
changes the payload observed through the visualization tab as well.  (The
payloads are equal at creation, but "any later mutation ... leaves the
other tab's payload unchanged" fails.) -/
theorem C4_counterexample :
    (createVisualizationTabRef "oa" "ov" 2 exRef).payloadOf "ov" =
      some exP1 ∧
    (mutatePayloadInPlace "oa" exP2
      (createVisualizationTabRef "oa" "ov" 2 exRef)).payloadOf "ov" =
      some exP2 ∧
    exP2 ≠ exP1 :=
  ⟨rfl, rfl, by decide⟩

/-- C4 (amended): at creation the visualization tab's stored payload
equals the source's, and replacing the map entry of either tab (which is
the only way the program ever updates payloads) leaves the entry of the
other unchanged; in-place mutation of the shared payload object is not
covered, because the entry is a shared reference, not a clone. -/
theorem C4_visualization_payload (s : AppState) (srcId freshId : String)
    (now : Nat) (hne : freshId ≠ srcId) (tab : OutputTab)
    (payload : ResultPayload)
    (htab : s.outputTabs.find? (fun t => t.id = srcId) = some tab)
    (hp : s.tabResults.lookup srcId = some payload) :
    ((createVisualizationTab srcId freshId now s).tabResults.lookup freshId =
      some payload) ∧
    ((createVisualizationTab srcId freshId now s).tabResults.lookup srcId =
      some payload) ∧
    (∀ p' : ResultPayload,
      (setKey (createVisualizationTab srcId freshId now s).tabResults
        freshId p').lookup srcId = some payload) ∧
    (∀ p' : ResultPayload,
      (setKey (createVisualizationTab srcId freshId now s).tabResults
        srcId p').lookup freshId = some payload) := by
  have hres : (createVisualizationTab srcId freshId now s).tabResults =
      setKey s.tabResults freshId payload := by
    unfold createVisualizationTab
    rw [htab, hp]
  have h1 : (createVisualizationTab srcId freshId now s).tabResults.lookup
      freshId = some payload := by
    rw [hres]
    exact lookup_setKey_self _ _ _
  have h2 : (createVisualizationTab srcId freshId now s).tabResults.lookup
      srcId = some payload := by
    rw [hres, lookup_setKey_ne _ _ _ _ (Ne.symm hne)]
    exact hp
  refine ⟨h1, h2, ?_, ?_⟩
  · intro p'
    rw [lookup_setKey_ne _ _ _ _ (Ne.symm hne)]
    exact h2
  · intro p'
    rw [lookup_setKey_ne _ _ _ _ hne]
    exact h1

def exState4 : AppState :=
  { exState with
    outputTabs := [exOutA]
    activeOutputTabId := some "oa"
    tabResults := [("oa", exP1)]
    tabTypes := [("oa", TabKind.results)] }

/-- Witness for C4 at a one-output-tab state: the cloned-in value equals
the source payload, and replacing either entry leaves the other intact. -/
theorem C4_witness :
    (createVisualizationTab "oa" "ov" 2 exState4).tabResults.lookup "ov" =
      some exP1 ∧
    (setKey (createVisualizationTab "oa" "ov" 2 exState4).tabResults "ov"
      exP2).lookup "oa" = some exP1 := by
  have h := C4_visualization_payload exState4 "oa" "ov" 2 (by decide)
    exOutA exP1 rfl rfl
  exact ⟨h.1, h.2.2.1 exP2⟩

/-- C9 (amended): whenever the container is large enough to host both
pixel floors (at least 400px in vertical orientation, 600px in
horizontal), a resize move yields a ratio keeping the editor pane at or
above the floor (200px vertical / 300px horizontal) and the results pane
likewise; the bounds are re-derived from the container extent passed to
each move.  In smaller containers the editor floor takes precedence and
the results-pane floor can be violated (see the counterexample). -/
theorem C9_resize_bounds (dir : String)
    (startSize startPos clientPos C : ℚ) :
    (dir = "vertical" → 400 ≤ C →
      200 ≤ handleResizeNewSize dir startSize startPos clientPos C * C / 100 ∧
      handleResizeNewSize dir startSize startPos clientPos C * C / 100 ≤
        C - 200) ∧
    (dir ≠ "vertical" → 600 ≤ C →
      300 ≤ handleResizeNewSize dir startSize startPos clientPos C * C / 100 ∧
      handleResizeNewSize dir startSize startPos clientPos C * C / 100 ≤
        C - 300) := by
  constructor
  · intro hdir hC
    have hC0 : (0 : ℚ) < C := by linarith
    have hCne : C ≠ 0 := ne_of_gt hC0
    unfold handleResizeNewSize
    rw [if_pos hdir]
    dsimp only
    split_ifs with h1 h2
    · have : 200 / C * 100 * C / 100 = 200 := by
        field_simp
        try ring
      rw [this]
      constructor
      · linarith
      · linarith
    · have : (C - 200) / C * 100 * C / 100 = C - 200 := by
        field_simp
        try ring
      rw [this]
      constructor
      · linarith
      · linarith
    · have heq : (C * startSize / 100 + (clientPos - startPos)) / C * 100 *
          C / 100 = C * startSize / 100 + (clientPos - startPos) := by
        field_simp
        try ring
      rw [heq]
      constructor
      · linarith
      · linarith
  · intro hdir hC
    have hC0 : (0 : ℚ) < C := by linarith
    have hCne : C ≠ 0 := ne_of_gt hC0
    unfold handleResizeNewSize
    rw [if_neg hdir]
    dsimp only
    split_ifs with h1 h2
    · have : 300 / C * 100 * C / 100 = 300 := by
        field_simp
        try ring
      rw [this]
      constructor
      · linarith
      · linarith
    · have : (C - 300) / C * 100 * C / 100 = C - 300 := by
        field_simp
        try ring
      rw [this]
      constructor
      · linarith
      · linarith
    · have heq : (C * startSize / 100 + (clientPos - startPos)) / C * 100 *
          C / 100 = C * startSize / 100 + (clientPos - startPos) := by
        field_simp
        try ring
      rw [heq]
      constructor
      · linarith
      · linarith

/-- C9 counterexample: in a 300px-high vertical container (smaller than
two 200px floors), a drag toward the top clamps the editor pane to its
200px floor and leaves the results pane only 100px — below the floor the
claim asserts for it. -/
theorem C9_counterexample :
    handleResizeNewSize "vertical" 50 100 0 300 * 300 / 100 = 200 ∧
    300 - handleResizeNewSize "vertical" 50 100 0 300 * 300 / 100 < 200 := by
  have h : handleResizeNewSize "vertical" 50 100 0 300 = 200 / 300 * 100 := by
    unfold handleResizeNewSize
    norm_num
  rw [h]
  norm_num

/-- Witness for C9: a vertical drag in a 1000px container stays within
both floors. -/
theorem C9_witness :
    200 ≤ handleResizeNewSize "vertical" 60 500 100 1000 * 1000 / 100 ∧
    handleResizeNewSize "vertical" 60 500 100 1000 * 1000 / 100 ≤
      1000 - 200 :=
  (C9_resize_bounds "vertical" 60 500 100 1000).1 rfl (by norm_num)

end QueryMan
